import Mathlib

/-!
Verification of the news-bot scheduling and delivery engine
(`database_handler.py`, `news_processor.py`, `news_bot.py`,
`news_scheduler.py`, `telegram_bot.py`) against its specification.

The relational state is embedded shallowly: each SQLite table becomes a
Lean list of row structures, each handler method a pure Lean function on
that state.  External collaborators (content extraction, summarization,
the Telegram send) are passed in as oracle functions, mirroring the
spec's ContentFetcher / ArticlePipeline / Dispatcher interfaces.
-/

namespace NewsBot

/-- A row of the `sent_messages` table
(`database_handler.py`, `init_database`): title NOT NULL, nullable
url/category/source/user_id.  The table has no UNIQUE constraint on
title (init even strips a legacy one), so the list carries duplicates
freely; `id`/`sent_at` play no role in the dedup logic and are omitted. -/
structure SentRow where
  title : String
  url : Option String
  category : Option String
  source : Option String
  user_id : Option Int
deriving DecidableEq

/-- The `sent_messages` table: rows in insertion order. -/
abbrev SentDB := List SentRow

/-- `NewsDatabase.is_message_sent(title, user_id)`: with a user id it runs
`SELECT 1 FROM sent_messages WHERE title = ? AND user_id = ? LIMIT 1`,
without one the global `WHERE title = ?` query; returns whether a row
matched. -/
def is_message_sent (db : SentDB) (title : String) (user_id : Option Int) : Bool :=
  match user_id with
  | some uid => db.any (fun row => row.title = title && row.user_id = some uid)
  | none => db.any (fun row => row.title = title)

/-- `NewsDatabase.record_sent_message(title, url, category, source, user_id)`:
with a user id it pre-checks `SELECT 1 ... WHERE title = ? AND user_id = ?`
and returns `False` without inserting when a row exists, otherwise inserts
and returns `True` (`cursor.rowcount > 0`).  Without a user id it runs
`INSERT OR IGNORE`; since the table has no uniqueness constraint the
insert always happens and the call returns `True`.  Result: (returned
boolean, table afterwards). -/
def record_sent_message (db : SentDB) (title : String)
    (url category source : Option String) (user_id : Option Int) : Bool × SentDB :=
  match user_id with
  | some uid =>
      if db.any (fun row => row.title = title && row.user_id = some uid) then
        (false, db)
      else
        (true, db ++ [⟨title, url, category, source, some uid⟩])
  | none =>
      (true, db ++ [⟨title, url, category, source, none⟩])

/-- With a user id and a matching pre-check, `record_sent_message` is a
no-op returning false. -/
theorem record_some_already (db : SentDB) (t : String) (u c s : Option String) (r : Int)
    (h : db.any (fun row => row.title = t && row.user_id = some r) = true) :
    record_sent_message db t u c s (some r) = (false, db) := by
  simp only [record_sent_message]
  rw [h]
  simp

/-- With a user id and an empty pre-check, `record_sent_message` appends
one row and returns true. -/
theorem record_some_fresh (db : SentDB) (t : String) (u c s : Option String) (r : Int)
    (h : db.any (fun row => row.title = t && row.user_id = some r) = false) :
    record_sent_message db t u c s (some r) =
      (true, db ++ [(⟨t, u, c, s, some r⟩ : SentRow)]) := by
  simp only [record_sent_message]
  rw [h]
  simp

/-- A lookup that answered true still answers true after any single
appended row. -/
theorem sent_append (db : SentDB) (row : SentRow) (t : String) (r : Option Int)
    (h : is_message_sent db t r = true) :
    is_message_sent (db ++ [row]) t r = true := by
  cases r with
  | some v =>
      simp only [is_message_sent, List.any_append, Bool.or_eq_true]
      exact Or.inl h
  | none =>
      simp only [is_message_sent, List.any_append, Bool.or_eq_true]
      exact Or.inl h

/-- One later `record_sent_message` call: its title, url, category, source
and user id arguments. -/
abbrev RecOp := String × Option String × Option String × Option String × Option Int

/-- Apply a sequence of later `record_sent_message` calls to the table. -/
def applyRecords (db : SentDB) (ops : List RecOp) : SentDB :=
  ops.foldl (fun d o => (record_sent_message d o.1 o.2.1 o.2.2.1 o.2.2.2.1 o.2.2.2.2).2) db

/-- `record_sent_message` never removes rows: a positive membership
answer is preserved by any later record call. -/
theorem record_preserves_sent (db : SentDB) (t : String)
    (u c s : Option String) (uid : Option Int) (t' : String) (r' : Option Int)
    (h : is_message_sent db t' r' = true) :
    is_message_sent (record_sent_message db t u c s uid).2 t' r' = true := by
  cases uid with
  | some v =>
      rcases hb : db.any (fun row => row.title = t && row.user_id = some v) with _ | _
      · rw [record_some_fresh db t u c s v hb]
        exact sent_append db _ t' r' h
      · rw [record_some_already db t u c s v hb]
        exact h
  | none =>
      show is_message_sent (db ++ [⟨t, u, c, s, none⟩]) t' r' = true
      exact sent_append db _ t' r' h

/-- Positive membership answers survive any sequence of later record calls. -/
theorem applyRecords_preserves_sent (ops : List RecOp) (db : SentDB)
    (t : String) (r : Option Int) (h : is_message_sent db t r = true) :
    is_message_sent (applyRecords db ops) t r = true := by
  induction ops generalizing db with
  | nil => simpa [applyRecords] using h
  | cons o rest ih =>
      simp only [applyRecords, List.foldl_cons]
      exact ih _ (record_preserves_sent _ _ _ _ _ _ _ _ h)

/-- Claim C1: idempotent dedup.  For a recipient `r` and title `t`, once
`record_sent_message(t, ..., user_id=r)` has returned true, the table
holds exactly one row for `(r, t)`, every later `is_message_sent(t, r)`
— even after further record calls — returns true, and a second
`record_sent_message(t, ..., user_id=r)` returns false and leaves the
table unchanged (no additional row). -/
theorem dedup_idempotent (db : SentDB) (t : String)
    (u c s u' c' s' : Option String) (r : Int) (ops : List RecOp)
    (h : (record_sent_message db t u c s (some r)).1 = true) :
    is_message_sent (record_sent_message db t u c s (some r)).2 t (some r) = true ∧
    (record_sent_message (record_sent_message db t u c s (some r)).2
        t u' c' s' (some r)).1 = false ∧
    (record_sent_message (record_sent_message db t u c s (some r)).2
        t u' c' s' (some r)).2 = (record_sent_message db t u c s (some r)).2 ∧
    ((record_sent_message db t u c s (some r)).2.filter
        (fun row => row.title = t && row.user_id = some r)).length = 1 ∧
    is_message_sent
      (applyRecords (record_sent_message db t u c s (some r)).2 ops) t (some r) = true := by
  have habs : db.any (fun row => row.title = t && row.user_id = some r) = false := by
    rcases hb : db.any (fun row => row.title = t && row.user_id = some r) with _ | _
    · rfl
    · rw [record_some_already db t u c s r hb] at h
      exact absurd h (by simp)
  rw [record_some_fresh db t u c s r habs]
  have hsent : is_message_sent (db ++ [(⟨t, u, c, s, some r⟩ : SentRow)]) t (some r) = true := by
    simp [is_message_sent, List.any_append]
  have hany : (db ++ [(⟨t, u, c, s, some r⟩ : SentRow)]).any
      (fun row => row.title = t && row.user_id = some r) = true := hsent
  refine ⟨hsent, ?_, ?_, ?_, applyRecords_preserves_sent _ _ _ _ hsent⟩
  · rw [record_some_already _ t u' c' s' r hany]
  · rw [record_some_already _ t u' c' s' r hany]
  · rw [List.filter_append]
    have h0 : db.filter (fun row => row.title = t && row.user_id = some r) = [] := by
      rw [List.filter_eq_nil_iff]
      intro row hrow hmatch
      have : db.any (fun row => row.title = t && row.user_id = some r) = true :=
        List.any_eq_true.mpr ⟨row, hrow, hmatch⟩
      rw [habs] at this
      exact Bool.false_ne_true this
    rw [h0]
    simp

/-- Witness for C1 on a concrete input: recording title "a" for user 1
into the empty table returns true, and the conclusions evaluate. -/
theorem dedup_idempotent_witness :
    is_message_sent (record_sent_message [] "a" none none none (some 1)).2 "a" (some 1) = true ∧
    (record_sent_message (record_sent_message [] "a" none none none (some 1)).2
        "a" none none none (some 1)).1 = false := by
  have h := dedup_idempotent [] "a" none none none none none none 1
    [("b", none, none, none, some 2)] (by decide)
  exact ⟨h.1, h.2.1⟩

/-- Claim C6: per-recipient isolation.  Recording title `t` for recipient
`r1` does not change the answer of `is_message_sent(t, r2)` for any other
non-null recipient `r2 ≠ r1`. -/
theorem record_isolated (db : SentDB) (t : String)
    (u c s : Option String) (r1 r2 : Int) (h : r1 ≠ r2) :
    is_message_sent (record_sent_message db t u c s (some r1)).2 t (some r2) =
      is_message_sent db t (some r2) := by
  rcases hb : db.any (fun row => row.title = t && row.user_id = some r1) with _ | _
  · rw [record_some_fresh db t u c s r1 hb]
    simp [is_message_sent, List.any_append, h]
  · rw [record_some_already db t u c s r1 hb]

/-- Witness for C6 at a concrete input: recording "a" for user 1 over a
one-row table leaves user 2's lookup unchanged. -/
theorem record_isolated_witness :
    is_message_sent
      (record_sent_message [⟨"a", none, none, none, some 3⟩] "a" none none none (some 1)).2
      "a" (some 2) =
    is_message_sent [(⟨"a", none, none, none, some 3⟩ : SentRow)] "a" (some 2) :=
  record_isolated [⟨"a", none, none, none, some 3⟩] "a" none none none 1 2 (by decide)

/-- Claim C10: the recipient-less lookup `is_message_sent(title)` answers
true exactly when some row with that exact title exists — whether it
belongs to a specific recipient or to the recipient-less global pool —
and recording a title for one specific recipient makes the recipient-less
lookup answer true for that title. -/
theorem global_lookup_spec (db : SentDB) (t : String)
    (u c s : Option String) (r : Int) :
    (is_message_sent db t none = true ↔ ∃ row ∈ db, row.title = t) ∧
    is_message_sent (record_sent_message db t u c s (some r)).2 t none = true := by
  constructor
  · simp [is_message_sent, List.any_eq_true]
  · rcases hb : db.any (fun row => row.title = t && row.user_id = some r) with _ | _
    · rw [record_some_fresh db t u c s r hb]
      simp [is_message_sent, List.any_append]
    · rw [record_some_already db t u c s r hb]
      obtain ⟨row, hrow, hmatch⟩ := List.any_eq_true.mp hb
      simp only [Bool.and_eq_true, decide_eq_true_eq] at hmatch
      simp only [is_message_sent, List.any_eq_true]
      exact ⟨row, hrow, by simp [hmatch.1]⟩

/-- A row of the `user_preferences` table (`init_database`): columns in
declaration order, with the schema defaults noted.  Nullable columns are
`Option`; `notifications BOOLEAN DEFAULT 1` is stored here as an
`Option Bool` so the NULL case of `get_user_preferences` is expressible. -/
structure PrefsRow where
  subscribed_categories : Option String
  preferred_time : Option String
  language : Option String
  daily_limit : Int
  notifications : Option Bool
  timezone : Option String
deriving DecidableEq

/-- The row `INSERT INTO user_preferences (user_id) VALUES (?)` creates:
every other column takes its schema default
(`subscribed_categories 'technology,science,sports,business'`,
`preferred_time NULL`, `language 'en'`, `daily_limit 5`,
`notifications 1`, `timezone 'UTC'`). -/
def defaultPrefsRow : PrefsRow :=
  ⟨some "technology,science,sports,business", none, some "en", 5, some true, some "UTC"⟩

/-- The dictionary `NewsDatabase.get_user_preferences` returns. -/
structure Preferences where
  subscribed_categories : List String
  preferred_time : Option String
  language : Option String
  daily_limit : Int
  notifications : Bool
  timezone : String
deriving DecidableEq

/-- `NewsDatabase.get_user_preferences(user_id)` on the fetched row (or
`none` when no row exists): a present row is mapped field by field —
`result[0].split(",") if result[0] else []` (Python treats NULL and ""
as falsy), `bool(result[4]) if result[4] is not None else True`,
`result[5] or "UTC"` — and a missing row yields the hard-coded default
dictionary with `"notifications": True`. -/
def get_user_preferences (row : Option PrefsRow) : Preferences :=
  match row with
  | some r =>
      { subscribed_categories :=
          match r.subscribed_categories with
          | some s => if s = "" then [] else s.splitOn ","
          | none => []
        preferred_time := r.preferred_time
        language := r.language
        daily_limit := r.daily_limit
        notifications :=
          match r.notifications with
          | some b => b
          | none => true
        timezone :=
          match r.timezone with
          | some tz => if tz = "" then "UTC" else tz
          | none => "UTC" }
  | none =>
      { subscribed_categories := ["technology", "science", "sports", "business"]
        preferred_time := none
        language := some "en"
        daily_limit := 5
        notifications := true
        timezone := "UTC" }

/-- A row of the `users` table (`init_database`): `user_id` primary key,
nullable display metadata, `is_active BOOLEAN DEFAULT 1`, `created_at`
and `last_seen` defaulting to the current timestamp (modelled as `Nat`
clock values). -/
structure UserRow where
  user_id : Int
  username : Option String
  first_name : Option String
  last_name : Option String
  is_active : Bool
  created_at : Nat
  last_seen : Nat
deriving DecidableEq

/-- The `users` table. -/
abbrev UsersTable := List UserRow

/-- The `user_preferences` table, keyed by user id. -/
abbrev PrefsTable := List (Int × PrefsRow)

/-- `NewsDatabase.register_user(user_id, username, first_name, last_name)`
at clock time `now`:
`INSERT OR REPLACE INTO users (user_id, username, first_name, last_name,
last_seen) VALUES (?, ?, ?, ?, CURRENT_TIMESTAMP)` — SQLite replace
deletes any existing row with this primary key and inserts a fresh row,
so the unlisted columns `is_active` and `created_at` take their schema
defaults (1 and CURRENT_TIMESTAMP) — followed by
`INSERT OR IGNORE INTO user_preferences (user_id) VALUES (?)`, which
leaves an existing preferences row untouched and otherwise materializes
the default row. -/
def register_user (users : UsersTable) (prefs : PrefsTable) (now : Nat)
    (uid : Int) (username first_name last_name : Option String) :
    UsersTable × PrefsTable :=
  let users1 := users.filter (fun u => u.user_id ≠ uid) ++
    [⟨uid, username, first_name, last_name, true, now, now⟩]
  let prefs1 := if prefs.any (fun p => p.1 = uid) then prefs
    else prefs ++ [(uid, defaultPrefsRow)]
  (users1, prefs1)

/-- Look up a user's preferences row (`SELECT ... WHERE user_id = ?`). -/
def prefsLookup (prefs : PrefsTable) (uid : Int) : Option PrefsRow :=
  (prefs.find? (fun p => p.1 = uid)).map (fun p => p.2)

/-- Counterexample to claim C5: the claimed default of
notifications-enabled = false is wrong.  Reading the preferences of a
recipient with no row returns `"notifications": True`, and reading a
freshly materialized default row (schema default `notifications = 1`)
also yields true. -/
theorem notifications_default_counterexample :
    (get_user_preferences none).notifications = true ∧
    (get_user_preferences (some defaultPrefsRow)).notifications = true ∧
    (get_user_preferences (some defaultPrefsRow)).notifications ≠ false := by
  refine ⟨rfl, rfl, by decide⟩

/-- Claim C5 as amended: for every newly created recipient whose
notifications flag was never explicitly set, reading their preferences
yields notifications-enabled = TRUE — both for the freshly materialized
default row that `register_user` inserts and for the documented default
set returned when no row exists. -/
theorem notifications_default_true (users : UsersTable) (prefs : PrefsTable)
    (now : Nat) (uid : Int) (un fn ln : Option String)
    (hfresh : prefs.any (fun p => p.1 = uid) = false) :
    prefsLookup (register_user users prefs now uid un fn ln).2 uid =
      some defaultPrefsRow ∧
    (get_user_preferences
        (prefsLookup (register_user users prefs now uid un fn ln).2 uid)).notifications
      = true ∧
    (get_user_preferences none).notifications = true := by
  have hlk : prefsLookup (register_user users prefs now uid un fn ln).2 uid =
      some defaultPrefsRow := by
    simp only [register_user, hfresh]
    rw [if_neg (by simp)]
    simp only [prefsLookup]
    rw [List.find?_append]
    have hnone : prefs.find? (fun p => p.1 = uid) = none := by
      rw [List.find?_eq_none]
      intro p hp
      intro hmatch
      have : prefs.any (fun p => p.1 = uid) = true := List.any_eq_true.mpr ⟨p, hp, hmatch⟩
      rw [hfresh] at this
      exact Bool.false_ne_true this
    rw [hnone]
    simp
  refine ⟨hlk, ?_, rfl⟩
  rw [hlk]
  rfl

/-- Witness for the amended C5 at a concrete input: registering user 9
into an empty database materializes the default row and their
preferences read back notifications = true. -/
theorem notifications_default_true_witness :
    prefsLookup (register_user [] [] 50 9 none none none).2 9 = some defaultPrefsRow ∧
    (get_user_preferences (prefsLookup (register_user [] [] 50 9 none none none).2 9)).notifications = true :=
  ⟨(notifications_default_true [] [] 50 9 none none none (by decide)).1,
   (notifications_default_true [] [] 50 9 none none none (by decide)).2.1⟩

/-- Counterexample to claim C9: re-registering is not a metadata-only
update.  A deactivated recipient (is_active = 0, created_at = 100)
re-registers at time 200 and the `INSERT OR REPLACE` rewrites the whole
row: is_active is reset to 1 and created_at to 200, so the active flag
and the creation timestamp are NOT left unchanged. -/
theorem register_replaces_counterexample :
    (register_user [⟨1, some "old", none, none, false, 100, 100⟩] [(1, defaultPrefsRow)]
        200 1 (some "new") none none).1 =
      [⟨1, some "new", none, none, true, 200, 200⟩] ∧
    (⟨1, some "old", none, none, false, 100, 100⟩ : UserRow).is_active = false ∧
    ((register_user [⟨1, some "old", none, none, false, 100, 100⟩] [(1, defaultPrefsRow)]
        200 1 (some "new") none none).1.filter
      (fun u => u.user_id = 1 && u.is_active = false && u.created_at = 100)) = [] := by
  refine ⟨?_, rfl, ?_⟩ <;> decide

/-- Claim C9 as amended: `register_user` is an upsert that, for an
already-registered recipient, replaces the whole users row — the display
metadata and last_seen take the new call's values while is_active and
created_at are reset to their schema defaults (active, now) — leaves the
recipient's existing preferences row and every other recipient's users
rows unchanged, and on first registration also materializes the default
preferences row. -/
theorem register_upsert (users : UsersTable) (prefs : PrefsTable) (now : Nat)
    (uid v : Int) (un fn ln : Option String) (hv : v ≠ uid) :
    (register_user users prefs now uid un fn ln).1.filter (fun u => u.user_id = uid) =
      [⟨uid, un, fn, ln, true, now, now⟩] ∧
    (register_user users prefs now uid un fn ln).1.filter (fun u => u.user_id = v) =
      users.filter (fun u => u.user_id = v) ∧
    (prefs.any (fun p => p.1 = uid) = true →
      (register_user users prefs now uid un fn ln).2 = prefs) ∧
    (prefs.any (fun p => p.1 = uid) = false →
      (register_user users prefs now uid un fn ln).2 = prefs ++ [(uid, defaultPrefsRow)]) := by
  refine ⟨?_, ?_, ?_, ?_⟩
  · simp only [register_user, List.filter_append]
    have h0 : (users.filter (fun u => u.user_id ≠ uid)).filter (fun u => u.user_id = uid) = [] := by
      rw [List.filter_eq_nil_iff]
      intro u hu
      have := List.of_mem_filter hu
      simp only [decide_eq_true_eq] at this ⊢
      intro hc
      rw [hc] at this
      simp at this
    rw [h0]
    simp
  · simp only [register_user, List.filter_append]
    have h1 : (users.filter (fun u => u.user_id ≠ uid)).filter (fun u => u.user_id = v) =
        users.filter (fun u => u.user_id = v) := by
      induction users with
      | nil => rfl
      | cons a l ih =>
          by_cases ha : a.user_id = v
          · have hne : a.user_id ≠ uid := by rw [ha]; exact hv
            simp only [List.filter_cons]
            rw [if_pos (by simpa using hne)]
            simp only [List.filter_cons]
            rw [if_pos (by simpa using ha), if_pos (by simpa using ha)]
            rw [ih]
          · by_cases hb : a.user_id = uid
            · simp only [List.filter_cons]
              rw [if_neg (by simpa using hb)]
              rw [if_neg (by simpa using ha)]
              rw [ih]
            · simp only [List.filter_cons]
              rw [if_pos (by simpa using hb)]
              simp only [List.filter_cons]
              rw [if_neg (by simpa using ha), if_neg (by simpa using ha)]
              rw [ih]
    rw [h1]
    have h2 : List.filter (fun u => u.user_id = v)
        [(⟨uid, un, fn, ln, true, now, now⟩ : UserRow)] = [] := by
      simp [List.filter_cons, Ne.symm hv]
    rw [h2, List.append_nil]
  · intro hin
    simp [register_user, hin]
  · intro hout
    simp only [register_user, hout]
    rw [if_neg (by simp)]

/-- Witness for the amended C9 at a concrete input: re-registering user 1
(previously inactive, created at 100) at time 200 rewrites their row,
leaves user 2's row and user 1's preferences row alone. -/
theorem register_upsert_witness :
    (register_user [⟨1, some "old", none, none, false, 100, 100⟩,
        ⟨2, some "bob", none, none, true, 7, 7⟩] [(1, defaultPrefsRow)]
        200 1 (some "new") none none).1.filter (fun u => u.user_id = 1) =
      [⟨1, some "new", none, none, true, 200, 200⟩] ∧
    (register_user [⟨1, some "old", none, none, false, 100, 100⟩,
        ⟨2, some "bob", none, none, true, 7, 7⟩] [(1, defaultPrefsRow)]
        200 1 (some "new") none none).2 = [(1, defaultPrefsRow)] := by
  have h := register_upsert [⟨1, some "old", none, none, false, 100, 100⟩,
    ⟨2, some "bob", none, none, true, 7, 7⟩] [(1, defaultPrefsRow)]
    200 1 2 (some "new") none none (by decide)
  exact ⟨h.1, h.2.2.1 (by decide)⟩

/-- A candidate news item as aggregated by the fetch loops: the fetchers
only keep articles whose `link` and `title` fields are present
(`if article.get("link") and article.get("title")`), and remember which
source key the article came from. -/
structure Article where
  title : String
  link : String
  source : String
deriving DecidableEq

/-- A message `send_news_to_dm` delivers to the recipient's DM: the
category header, one message per article, and the closing footer
(count sent, candidates available).  The function has no
nothing-new notice; the constructor `nothingNew` exists only so its
absence from a run's output is expressible. -/
inductive DmMessage where
  | header : DmMessage
  | article : String → DmMessage
  | footer : Nat → Nat → DmMessage
  | nothingNew : DmMessage
deriving DecidableEq

/-- Outcome of one `send_news_to_dm` run: the value returned to the
caller, the number of `record_sent_message` calls made, the messages
delivered to the recipient, and the `sent_messages` table afterwards. -/
structure DmRun where
  returned : Nat
  records : Nat
  messages : List DmMessage
  db : SentDB
deriving DecidableEq

/-- The per-article loop of `NewsTelegramBot.send_news_to_dm` over
`new_articles[:max_articles]`: extraction failure or summarization
failure skips the article (`continue`); the Telegram send is awaited and
a raised send error is caught by the per-article handler (`sendOk a =
false` means the send failed, so neither the record call nor the counter
increment is reached); on a successful send `record_sent_message(title,
link, category, source_key, user_id)` runs and `articles_sent`
increments.  Returns (articles_sent, article messages delivered, table). -/
def dmLoop (uid : Int) (category : String) (extract : Article → Option String)
    (summarize : String → Option String) (sendOk : Article → Bool) :
    List Article → SentDB → Nat × List DmMessage × SentDB
  | [], db => (0, [], db)
  | a :: rest, db =>
    match extract a with
    | none => dmLoop uid category extract summarize sendOk rest db
    | some c =>
      match summarize c with
      | none => dmLoop uid category extract summarize sendOk rest db
      | some _ =>
        if sendOk a then
          ((dmLoop uid category extract summarize sendOk rest
              (record_sent_message db a.title (some a.link) (some category)
                (some a.source) (some uid)).2).1 + 1,
           DmMessage.article a.title ::
             (dmLoop uid category extract summarize sendOk rest
               (record_sent_message db a.title (some a.link) (some category)
                 (some a.source) (some uid)).2).2.1,
           (dmLoop uid category extract summarize sendOk rest
             (record_sent_message db a.title (some a.link) (some category)
               (some a.source) (some uid)).2).2.2)
        else
          dmLoop uid category extract summarize sendOk rest db

/-- `NewsTelegramBot.send_news_to_dm(user_id, category, news_sources)`,
with the fetched candidate list and the external collaborators passed as
oracles.  `new_articles` filters out titles already sent TO THIS USER;
when it is empty the function returns 0 at once, delivering nothing.
`headerOk`/`footerOk` model the header and footer Telegram sends: a
raised header send hits the outer handler (return 0 before any item), a
raised footer send hits it after the items (articles recorded but 0
returned).  Then up to `min(daily_limit, len(new_articles))` items run
through the per-article loop, and a footer is sent when
`articles_sent > 0`.  `daily_limit` is the recipient's per-category cap,
a positive integer per the data model. -/
def send_news_to_dm (db : SentDB) (uid : Int) (category : String)
    (daily_limit : Nat) (articles : List Article)
    (extract : Article → Option String) (summarize : String → Option String)
    (sendOk : Article → Bool) (headerOk footerOk : Bool) : DmRun :=
  let new_articles := articles.filter (fun a => !(is_message_sent db a.title (some uid)))
  if new_articles.isEmpty then ⟨0, 0, [], db⟩
  else if headerOk = false then ⟨0, 0, [], db⟩
  else
    let r := dmLoop uid category extract summarize sendOk
      (new_articles.take (min daily_limit new_articles.length)) db
    if 0 < r.1 then
      if footerOk then
        ⟨r.1, r.1, DmMessage.header :: (r.2.1 ++ [DmMessage.footer r.1 new_articles.length]), r.2.2⟩
      else
        ⟨0, r.1, DmMessage.header :: r.2.1, r.2.2⟩
    else
      ⟨r.1, r.1, DmMessage.header :: r.2.1, r.2.2⟩

/-- A message the group-thread run (`news_processor.send_news_category`)
delivers: the starting banner, the no-news notice, the per-source
header, one message per article. -/
inductive ThreadMessage where
  | starting : ThreadMessage
  | noNews : ThreadMessage
  | sourceHeader : ThreadMessage
  | article : String → ThreadMessage
deriving DecidableEq

/-- The per-article loop of `news_processor.send_news_category`: skip on
extraction or summarization failure; `if send_message(...):` guards the
recipient-less `record_sent_message(title, url, category, source)` call,
which runs only when the send returned True. -/
def npLoop (category source : String) (extract : Article → Option String)
    (summarize : String → Option String) (sendOk : Article → Bool) :
    List Article → SentDB → Nat × List ThreadMessage × SentDB
  | [], db => (0, [], db)
  | a :: rest, db =>
    match extract a with
    | none => npLoop category source extract summarize sendOk rest db
    | some c =>
      match summarize c with
      | none => npLoop category source extract summarize sendOk rest db
      | some _ =>
        if sendOk a then
          ((npLoop category source extract summarize sendOk rest
              (record_sent_message db a.title (some a.link) (some category)
                (some source) none).2).1 + 1,
           ThreadMessage.article a.title ::
             (npLoop category source extract summarize sendOk rest
               (record_sent_message db a.title (some a.link) (some category)
                 (some source) none).2).2.1,
           (npLoop category source extract summarize sendOk rest
             (record_sent_message db a.title (some a.link) (some category)
               (some source) none).2).2.2)
        else
          npLoop category source extract summarize sendOk rest db

/-- `news_processor.send_news_category` on the aggregated fetch results:
if the starting-banner send fails the run returns at once; candidates are
filtered by `article.get("title") and not is_message_sent(title)` (the
recipient-less global lookup); an empty remainder sends the single
no-news notice; otherwise a source header is sent and every remaining
candidate (no cap in this run) goes through the per-article loop.
Returns (messages delivered to the thread, table afterwards). -/
def np_send_news_category (db : SentDB) (articles : List Article)
    (category source : String) (startOk : Bool)
    (extract : Article → Option String) (summarize : String → Option String)
    (sendOk : Article → Bool) : List ThreadMessage × SentDB :=
  if startOk = false then ([], db)
  else
    let data := articles.filter (fun a => a.title ≠ "" && !(is_message_sent db a.title none))
    if data.isEmpty then ([ThreadMessage.starting, ThreadMessage.noNews], db)
    else
      (ThreadMessage.starting :: ThreadMessage.sourceHeader ::
        (npLoop category source extract summarize sendOk data db).2.1,
       (npLoop category source extract summarize sendOk data db).2.2)

/-- Result an attempted Telegram send reports at the API level
(the HTTP response's ok flag). -/
inductive ApiResult where
  | ok : ApiResult
  | failed : ApiResult
deriving DecidableEq

/-- `news_bot.write_sent_message`: append the title to the JSON ledger. -/
def write_sent_message (sent : List String) (title : String) : List String :=
  sent ++ [title]

/-- The per-article loop of the legacy `news_bot.send_news_category`
(lines 37-50): skip on extraction or summarization failure, then call
`send_message` — whose API outcome the code never inspects (the function
returns nothing) — and unconditionally call `write_sent_message`.
Returns (ledger afterwards, the send attempts with the API result each
one reported). -/
def newsBotLoop (extract : Article → Option String)
    (summarize : String → Option String) (sendResult : Article → ApiResult) :
    List Article → List String → List String × List (String × ApiResult)
  | [], sent => (sent, [])
  | a :: rest, sent =>
    match extract a with
    | none => newsBotLoop extract summarize sendResult rest sent
    | some c =>
      match summarize c with
      | none => newsBotLoop extract summarize sendResult rest sent
      | some _ =>
        ((newsBotLoop extract summarize sendResult rest
            (write_sent_message sent a.title)).1,
         (a.title, sendResult a) ::
           (newsBotLoop extract summarize sendResult rest
             (write_sent_message sent a.title)).2)

/-- One source's pass of the legacy `news_bot.send_news_category`: filter
to articles with a link whose title is not in the JSON ledger
(`data_with_link.get('link') and data_with_link.get('title') not in
sent_messages`), then run the per-article loop. -/
def newsBot_send_news_category (sent : List String) (articles : List Article)
    (extract : Article → Option String) (summarize : String → Option String)
    (sendResult : Article → ApiResult) : List String × List (String × ApiResult) :=
  let data := articles.filter (fun a => a.link ≠ "" && !(sent.contains a.title))
  if data.isEmpty then (sent, [])
  else newsBotLoop extract summarize sendResult data sent

/-- Recording some other title leaves a negative lookup negative: the
appended row cannot match a query for a different title. -/
theorem record_keeps_unsent (db : SentDB) (t' t : String) (u c s : Option String)
    (w : Option Int) (r' : Option Int) (hne : t' ≠ t)
    (h : is_message_sent db t r' = false) :
    is_message_sent (record_sent_message db t' u c s w).2 t r' = false := by
  cases w with
  | some v =>
      rcases hb : db.any (fun row => row.title = t' && row.user_id = some v) with _ | _
      · rw [record_some_fresh db t' u c s v hb]
        cases r' with
        | some x =>
            simp only [is_message_sent, List.any_append, Bool.or_eq_false_iff] at h ⊢
            refine ⟨h, ?_⟩
            simp [hne]
        | none =>
            simp only [is_message_sent, List.any_append, Bool.or_eq_false_iff] at h ⊢
            refine ⟨h, ?_⟩
            simp [hne]
      · rw [record_some_already db t' u c s v hb]
        exact h
  | none =>
      show is_message_sent (db ++ [⟨t', u, c, s, none⟩]) t r' = false
      cases r' with
      | some x =>
          simp only [is_message_sent, List.any_append, Bool.or_eq_false_iff] at h ⊢
          refine ⟨h, ?_⟩
          simp [hne]
      | none =>
          simp only [is_message_sent, List.any_append, Bool.or_eq_false_iff] at h ⊢
          refine ⟨h, ?_⟩
          simp [hne]

/-- The DM per-article loop sends (and therefore records) at most one
article per list entry. -/
theorem dmLoop_count_le (uid : Int) (category : String)
    (extract : Article → Option String) (summarize : String → Option String)
    (sendOk : Article → Bool) (l : List Article) :
    ∀ db, (dmLoop uid category extract summarize sendOk l db).1 ≤ l.length := by
  induction l with
  | nil => intro db; simp [dmLoop]
  | cons a rest ih =>
      intro db
      rcases he : extract a with _ | c
      · simp only [dmLoop, he, List.length_cons]
        exact (ih db).trans (Nat.le_succ _)
      · rcases hs : summarize c with _ | s
        · simp only [dmLoop, he, hs, List.length_cons]
          exact (ih db).trans (Nat.le_succ _)
        · rcases hk : sendOk a with _ | _
          · simp only [dmLoop, he, hs, hk, Bool.false_eq_true, if_false, List.length_cons]
            exact (ih db).trans (Nat.le_succ _)
          · simp only [dmLoop, he, hs, hk, if_true, List.length_cons]
            exact Nat.succ_le_succ (ih _)

/-- If the send fails for every candidate bearing title `t`, the DM
per-article loop leaves `t` unsent for the recipient. -/
theorem dmLoop_keeps_unsent (uid : Int) (category : String)
    (extract : Article → Option String) (summarize : String → Option String)
    (sendOk : Article → Bool) (t : String) (l : List Article) :
    ∀ db, (∀ a ∈ l, a.title = t → sendOk a = false) →
      is_message_sent db t (some uid) = false →
      is_message_sent (dmLoop uid category extract summarize sendOk l db).2.2 t (some uid) = false := by
  induction l with
  | nil => intro db _ h; simpa [dmLoop] using h
  | cons a rest ih =>
      intro db hall h
      have hrest : ∀ b ∈ rest, b.title = t → sendOk b = false := by
        intro b hb
        exact hall b (List.mem_cons_of_mem a hb)
      rcases he : extract a with _ | c
      · simp only [dmLoop, he]
        exact ih db hrest h
      · rcases hs : summarize c with _ | s
        · simp only [dmLoop, he, hs]
          exact ih db hrest h
        · rcases hk : sendOk a with _ | _
          · simp only [dmLoop, he, hs, hk, Bool.false_eq_true, if_false]
            exact ih db hrest h
          · simp only [dmLoop, he, hs, hk, if_true]
            have hne : a.title ≠ t := by
              intro hc
              have := hall a (List.mem_cons_self a rest) hc
              rw [hk] at this
              exact Bool.noConfusion this
            exact ih _ hrest (record_keeps_unsent db a.title t _ _ _ _ _ hne h)

/-- If the send returns failure for every candidate bearing title `t`,
the thread per-article loop leaves `t` out of the global pool. -/
theorem npLoop_keeps_unsent (category source : String)
    (extract : Article → Option String) (summarize : String → Option String)
    (sendOk : Article → Bool) (t : String) (l : List Article) :
    ∀ db, (∀ a ∈ l, a.title = t → sendOk a = false) →
      is_message_sent db t none = false →
      is_message_sent (npLoop category source extract summarize sendOk l db).2.2 t none = false := by
  induction l with
  | nil => intro db _ h; simpa [npLoop] using h
  | cons a rest ih =>
      intro db hall h
      have hrest : ∀ b ∈ rest, b.title = t → sendOk b = false := by
        intro b hb
        exact hall b (List.mem_cons_of_mem a hb)
      rcases he : extract a with _ | c
      · simp only [npLoop, he]
        exact ih db hrest h
      · rcases hs : summarize c with _ | s
        · simp only [npLoop, he, hs]
          exact ih db hrest h
        · rcases hk : sendOk a with _ | _
          · simp only [npLoop, he, hs, hk, Bool.false_eq_true, if_false]
            exact ih db hrest h
          · simp only [npLoop, he, hs, hk, if_true]
            have hne : a.title ≠ t := by
              intro hc
              have := hall a (List.mem_cons_self a rest) hc
              rw [hk] at this
              exact Bool.noConfusion this
            exact ih _ hrest (record_keeps_unsent db a.title t _ _ _ _ _ hne h)

/-- The five fresh candidates of the cap-enforcement scenario. -/
def fiveFresh : List Article :=
  [⟨"a1", "l1", "s"⟩, ⟨"a2", "l2", "s"⟩, ⟨"a3", "l3", "s"⟩,
   ⟨"a4", "l4", "s"⟩, ⟨"a5", "l5", "s"⟩]

/-- Claim C3: cap enforcement.  A `send_news_to_dm` run makes at most
`daily_limit` record calls and returns at most `daily_limit`, whatever
the candidates and oracles do; and in the scenario — daily_limit = 2,
five fresh candidates, extraction, summarization and every send succeed —
exactly 2 record calls are made, 2 rows are added, and the run returns 2. -/
theorem cap_enforcement :
    (∀ (db : SentDB) (uid : Int) (category : String) (daily_limit : Nat)
        (articles : List Article) (extract : Article → Option String)
        (summarize : String → Option String) (sendOk : Article → Bool)
        (headerOk footerOk : Bool),
      (send_news_to_dm db uid category daily_limit articles extract summarize
          sendOk headerOk footerOk).records ≤ daily_limit ∧
      (send_news_to_dm db uid category daily_limit articles extract summarize
          sendOk headerOk footerOk).returned ≤ daily_limit) ∧
    (send_news_to_dm [] 7 "technology" 2 fiveFresh (fun _ => some "content")
        (fun _ => some "summary") (fun _ => true) true true).records = 2 ∧
    (send_news_to_dm [] 7 "technology" 2 fiveFresh (fun _ => some "content")
        (fun _ => some "summary") (fun _ => true) true true).returned = 2 ∧
    (send_news_to_dm [] 7 "technology" 2 fiveFresh (fun _ => some "content")
        (fun _ => some "summary") (fun _ => true) true true).db.length = 2 := by
  refine ⟨?_, by decide, by decide, by decide⟩
  intro db uid category daily_limit articles extract summarize sendOk headerOk footerOk
  have hloop : (dmLoop uid category extract summarize sendOk
      ((articles.filter (fun a => !(is_message_sent db a.title (some uid)))).take
        (min daily_limit
          (articles.filter (fun a => !(is_message_sent db a.title (some uid)))).length)) db).1
      ≤ daily_limit := by
    refine (dmLoop_count_le uid category extract summarize sendOk _ db).trans ?_
    refine (List.length_take_le _ _).trans ?_
    exact Nat.min_le_left _ _
  simp only [send_news_to_dm]
  split
  · exact ⟨Nat.zero_le _, Nat.zero_le _⟩
  · split
    · exact ⟨Nat.zero_le _, Nat.zero_le _⟩
    · split
      · split
        · exact ⟨hloop, hloop⟩
        · exact ⟨hloop, Nat.zero_le _⟩
      · exact ⟨hloop, hloop⟩

/-- Counterexample to claim C4: when no fresh candidates remain after
dedup filtering, `send_news_to_dm` returns 0 but delivers NO message at
all — in particular no "nothing new" notice (empty outbound message
list), contrary to the claim. -/
theorem nothing_new_counterexample :
    (send_news_to_dm [⟨"t1", none, none, none, some 7⟩] 7 "technology" 5
        [⟨"t1", "l1", "s"⟩] (fun _ => some "content") (fun _ => some "summary")
        (fun _ => true) true true).returned = 0 ∧
    (send_news_to_dm [⟨"t1", none, none, none, some 7⟩] 7 "technology" 5
        [⟨"t1", "l1", "s"⟩] (fun _ => some "content") (fun _ => some "summary")
        (fun _ => true) true true).messages = [] ∧
    DmMessage.nothingNew ∉
      (send_news_to_dm [⟨"t1", none, none, none, some 7⟩] 7 "technology" 5
        [⟨"t1", "l1", "s"⟩] (fun _ => some "content") (fun _ => some "summary")
        (fun _ => true) true true).messages := by
  refine ⟨by decide, by decide, by decide⟩

/-- Claim C4 as amended: when no fresh candidates remain after dedup
filtering, the DM run (`send_news_to_dm`) returns a sent-count of 0 as a
success outcome but silently — it delivers no message and leaves the
table untouched; the single "nothing new" notice exists only in the
group-thread run (`news_processor.send_news_category`), which sends
exactly the starting banner plus one no-news notice and also changes
nothing. -/
theorem nothing_new_behavior :
    (∀ (db : SentDB) (uid : Int) (category : String) (daily_limit : Nat)
        (articles : List Article) (extract : Article → Option String)
        (summarize : String → Option String) (sendOk : Article → Bool)
        (headerOk footerOk : Bool),
      articles.filter (fun a => !(is_message_sent db a.title (some uid))) = [] →
      send_news_to_dm db uid category daily_limit articles extract summarize
        sendOk headerOk footerOk = ⟨0, 0, [], db⟩) ∧
    (∀ (db : SentDB) (articles : List Article) (category source : String)
        (extract : Article → Option String) (summarize : String → Option String)
        (sendOk : Article → Bool),
      articles.filter (fun a => a.title ≠ "" && !(is_message_sent db a.title none)) = [] →
      np_send_news_category db articles category source true extract summarize sendOk =
        ([ThreadMessage.starting, ThreadMessage.noNews], db)) := by
  constructor
  · intro db uid category daily_limit articles extract summarize sendOk headerOk footerOk h
    simp only [send_news_to_dm, h]
    simp
  · intro db articles category source extract summarize sendOk h
    simp only [np_send_news_category, h]
    simp

/-- Witness for the amended C4 at concrete inputs: with the only
candidate already sent, the DM run yields ⟨0, 0, [], db⟩ and the thread
run delivers exactly the banner and one no-news notice. -/
theorem nothing_new_behavior_witness :
    send_news_to_dm [⟨"t1", none, none, none, some 7⟩] 7 "technology" 5
        [⟨"t1", "l1", "s"⟩] (fun _ => some "content") (fun _ => some "summary")
        (fun _ => true) true true =
      ⟨0, 0, [], [⟨"t1", none, none, none, some 7⟩]⟩ ∧
    np_send_news_category [⟨"t1", none, none, none, none⟩] [⟨"t1", "l1", "s"⟩]
        "technology" "s" true (fun _ => some "content") (fun _ => some "summary")
        (fun _ => true) =
      ([ThreadMessage.starting, ThreadMessage.noNews], [⟨"t1", none, none, none, none⟩]) :=
  ⟨nothing_new_behavior.1 [⟨"t1", none, none, none, some 7⟩] 7 "technology" 5
      [⟨"t1", "l1", "s"⟩] (fun _ => some "content") (fun _ => some "summary")
      (fun _ => true) true true (by decide),
   nothing_new_behavior.2 [⟨"t1", none, none, none, none⟩] [⟨"t1", "l1", "s"⟩]
      "technology" "s" (fun _ => some "content") (fun _ => some "summary")
      (fun _ => true) (by decide)⟩

/-- Counterexample to claim C2 on the legacy `news_bot.send_news_category`
loop cited by the claim: the send's API outcome is never inspected, so a
run whose only send attempt reported failure still has the item's title
recorded in its ledger afterward. -/
theorem no_send_no_record_counterexample :
    (newsBot_send_news_category [] [⟨"T", "http", "s"⟩] (fun _ => some "content")
        (fun _ => some "summary") (fun _ => ApiResult.failed)).2 =
      [("T", ApiResult.failed)] ∧
    "T" ∈ (newsBot_send_news_category [] [⟨"T", "http", "s"⟩] (fun _ => some "content")
        (fun _ => some "summary") (fun _ => ApiResult.failed)).1 := by
  refine ⟨by decide, by decide⟩

/-- Claim C2 as amended: in the delivery runs that use the dedup
database, no-send-no-record holds — if every send for title `t` fails,
a run of `send_news_to_dm` (per-recipient records) or of
`news_processor.send_news_category` (recipient-less records) leaves `t`
unrecorded; the legacy `news_bot.py` loop, by contrast, records titles
regardless of the send's API outcome. -/
theorem no_send_no_record (db : SentDB) (uid : Int) (category : String)
    (daily_limit : Nat) (articles : List Article)
    (extract : Article → Option String) (summarize : String → Option String)
    (sendOk : Article → Bool) (headerOk footerOk : Bool)
    (db2 : SentDB) (articles2 : List Article) (category2 source2 : String)
    (startOk : Bool) (extract2 : Article → Option String)
    (summarize2 : String → Option String) (sendOk2 : Article → Bool)
    (t t2 : String)
    (h1 : ∀ a ∈ articles, a.title = t → sendOk a = false)
    (h2 : is_message_sent db t (some uid) = false)
    (h3 : ∀ a ∈ articles2, a.title = t2 → sendOk2 a = false)
    (h4 : is_message_sent db2 t2 none = false) :
    is_message_sent (send_news_to_dm db uid category daily_limit articles extract
        summarize sendOk headerOk footerOk).db t (some uid) = false ∧
    is_message_sent (np_send_news_category db2 articles2 category2 source2 startOk
        extract2 summarize2 sendOk2).2 t2 none = false := by
  constructor
  · have hsub : ∀ a ∈ (articles.filter
        (fun a => !(is_message_sent db a.title (some uid)))).take
          (min daily_limit
            (articles.filter (fun a => !(is_message_sent db a.title (some uid)))).length),
        a.title = t → sendOk a = false := by
      intro a ha
      exact h1 a (List.mem_of_mem_filter (List.mem_of_mem_take ha))
    have hloop := dmLoop_keeps_unsent uid category extract summarize sendOk t _ db hsub h2
    simp only [send_news_to_dm]
    split
    · exact h2
    · split
      · exact h2
      · split
        · split
          · exact hloop
          · exact hloop
        · exact hloop
  · have hsub : ∀ a ∈ articles2.filter
        (fun a => a.title ≠ "" && !(is_message_sent db2 a.title none)),
        a.title = t2 → sendOk2 a = false := by
      intro a ha
      exact h3 a (List.mem_of_mem_filter ha)
    have hloop := npLoop_keeps_unsent category2 source2 extract2 summarize2 sendOk2 t2 _ db2 hsub h4
    simp only [np_send_news_category]
    split
    · exact h4
    · split
      · exact h4
      · exact hloop

/-- Witness for the amended C2 at concrete inputs: with the single send
failing, neither run records title "T". -/
theorem no_send_no_record_witness :
    is_message_sent (send_news_to_dm [] 7 "technology" 5 [⟨"T", "l", "s"⟩]
        (fun _ => some "content") (fun _ => some "summary") (fun _ => false)
        true true).db "T" (some 7) = false ∧
    is_message_sent (np_send_news_category [] [⟨"T", "l", "s"⟩] "technology" "s"
        true (fun _ => some "content") (fun _ => some "summary")
        (fun _ => false)).2 "T" none = false :=
  no_send_no_record [] 7 "technology" 5 [⟨"T", "l", "s"⟩]
    (fun _ => some "content") (fun _ => some "summary") (fun _ => false) true true
    [] [⟨"T", "l", "s"⟩] "technology" "s" true
    (fun _ => some "content") (fun _ => some "summary") (fun _ => false)
    "T" "T" (by intro a _ _; rfl) (by decide) (by intro a _ _; rfl) (by decide)

/-- The cron trigger of a scheduler job
(`CronTrigger(hour=hour, minute=minute, timezone=timezone)`). -/
structure CronTrigger where
  hour : Nat
  minute : Nat
  timezone : String
deriving DecidableEq

/-- An APScheduler job as `NewsScheduler` uses it: its string id
(`daily_news_<user_id>`) and its cron trigger.  The job's callback
arguments (the captured category list) play no role in the timer
bookkeeping and are omitted. -/
structure Job where
  id : String
  trigger : CronTrigger
deriving DecidableEq

/-- The scheduler's job store. -/
abbrev JobTable := List Job

/-- `scheduler.get_job(job_id)`. -/
def get_job (jobs : JobTable) (jid : String) : Option Job :=
  jobs.find? (fun j => j.id = jid)

/-- `scheduler.remove_job(job_id)`: drops every job with that id. -/
def remove_job (jobs : JobTable) (jid : String) : JobTable :=
  jobs.filter (fun j => j.id ≠ jid)

/-- `scheduler.add_job(..., id=job_id)`. -/
def add_job (jobs : JobTable) (j : Job) : JobTable :=
  jobs ++ [j]

/-- The per-user job id `f"daily_news_\x7buser_id\x7d"`. -/
def job_id (uid : Int) : String :=
  s!"daily_news_{uid}"

/-- Split a character list at every colon, the way Python's
`"...".split(":")` does (an empty input gives one empty piece). -/
def splitColon : List Char → List (List Char)
  | [] => [[]]
  | c :: rest =>
      if c = ':' then [] :: splitColon rest
      else
        match splitColon rest with
        | [] => [[c]]
        | g :: gs => (c :: g) :: gs

/-- Python's `int(...)` on one split piece: a non-empty all-digit string
parses as a decimal number, anything else raises (leading signs and
whitespace, which `int` would also accept, never arise in well-formed
HH:MM strings and are not modelled). -/
def digitsToNat? (cs : List Char) : Option Nat :=
  match cs with
  | [] => none
  | _ =>
      cs.foldl
        (fun acc c =>
          match acc with
          | none => none
          | some n => if c.isDigit then some (n * 10 + (c.toNat - 48)) else none)
        (some 0)

/-- `hour, minute = map(int, preferred_time.split(":"))`: the unpacking
succeeds exactly when the split yields two pieces and both parse as
decimal numbers; any failure raises and is caught by the enclosing
handler. -/
def parseTime (s : String) : Option (Nat × Nat) :=
  match splitColon s.toList with
  | [h, m] =>
      match digitsToNat? h, digitsToNat? m with
      | some a, some b => some (a, b)
      | _, _ => none
  | _ => none

/-- `NewsScheduler.schedule_user_news(user_id, preferred_time, timezone,
categories)`: parse the time first (a parse failure raises before
anything was touched, so the handler leaves the store unchanged); remove
the user's existing job if present; fall back to UTC when
`pytz.timezone(timezone)` rejects the name; then arm the new cron job —
`CronTrigger` itself rejects an out-of-range hour or minute, and that
error is caught after the removal already happened. -/
def schedule_user_news (validTz : String → Bool) (jobs : JobTable) (uid : Int)
    (preferred_time timezone : String) : JobTable :=
  match parseTime preferred_time with
  | none => jobs
  | some hm =>
      let jobs1 := if (get_job jobs (job_id uid)).isSome
        then remove_job jobs (job_id uid) else jobs
      if hm.1 ≤ 23 && hm.2 ≤ 59 then
        add_job jobs1 ⟨job_id uid, ⟨hm.1, hm.2,
          if validTz timezone then timezone else "UTC"⟩⟩
      else jobs1

/-- `NewsScheduler.update_user_schedule(user_id)`, with the freshly read
preferences passed in: remove the user's existing job, then re-arm via
`schedule_user_news` only when `notifications and preferred_time` (a
`None` or empty time string is falsy). -/
def update_user_schedule (validTz : String → Bool) (jobs : JobTable) (uid : Int)
    (prefs : Preferences) : JobTable :=
  let jobs1 := if (get_job jobs (job_id uid)).isSome
    then remove_job jobs (job_id uid) else jobs
  match prefs.preferred_time with
  | none => jobs1
  | some t =>
      if prefs.notifications && t ≠ "" then
        schedule_user_news validTz jobs1 uid t prefs.timezone
      else jobs1

/-- One scheduler call: a direct `schedule_user_news(uid, time, tz, ...)`
or an `update_user_schedule(uid)` that reads the given preferences. -/
inductive SchedOp where
  | sched : Int → String → String → SchedOp
  | upd : Int → Preferences → SchedOp
deriving DecidableEq

/-- Run one scheduler call against the job store. -/
def applyOp (validTz : String → Bool) (jobs : JobTable) : SchedOp → JobTable
  | SchedOp.sched uid t tz => schedule_user_news validTz jobs uid t tz
  | SchedOp.upd uid p => update_user_schedule validTz jobs uid p

/-- Run a sequence of scheduler calls from a starting store. -/
def applyOps (validTz : String → Bool) (jobs : JobTable) (ops : List SchedOp) : JobTable :=
  ops.foldl (applyOp validTz) jobs

/-- Number of jobs carrying a given id. -/
def countId (jobs : JobTable) (jid : String) : Nat :=
  (jobs.filter (fun j => j.id = jid)).length

/-- After the remove-if-present step, no job with the target id remains
(either they were all removed, or none existed). -/
theorem removeIf_filter_self (jobs : JobTable) (jid : String) :
    ((if (get_job jobs jid).isSome then remove_job jobs jid else jobs).filter
      (fun j => j.id = jid)) = [] := by
  by_cases hg : (get_job jobs jid).isSome
  · rw [if_pos hg]
    rw [List.filter_eq_nil_iff]
    intro j hj hid
    have := List.of_mem_filter hj
    simp only [decide_eq_true_eq] at this hid
    exact this hid
  · rw [if_neg hg]
    rw [List.filter_eq_nil_iff]
    intro j hj hid
    have hfind : get_job jobs jid = none := by
      cases hf : get_job jobs jid with
      | none => rfl
      | some x =>
          rw [hf] at hg
          exact absurd rfl hg
    have := List.find?_eq_none.mp hfind j hj
    simp only [decide_eq_true_eq] at this hid
    exact this hid

/-- `remove_job` for one id leaves the jobs of every other id untouched. -/
theorem remove_filter_other (jobs : JobTable) (jid jid' : String) (hne : jid' ≠ jid) :
    (remove_job jobs jid).filter (fun j => j.id = jid') =
      jobs.filter (fun j => j.id = jid') := by
  unfold remove_job
  induction jobs with
  | nil => rfl
  | cons a l ih =>
      by_cases ha : a.id = jid'
      · have hne2 : a.id ≠ jid := by rw [ha]; exact hne
        simp only [List.filter_cons]
        rw [if_pos (by simpa using hne2)]
        simp only [List.filter_cons]
        rw [if_pos (by simpa using ha), if_pos (by simpa using ha)]
        rw [ih]
      · by_cases hb : a.id = jid
        · simp only [List.filter_cons]
          rw [if_neg (by simpa using hb)]
          rw [if_neg (by simpa using ha)]
          rw [ih]
        · simp only [List.filter_cons]
          rw [if_pos (by simpa using hb)]
          simp only [List.filter_cons]
          rw [if_neg (by simpa using ha), if_neg (by simpa using ha)]
          rw [ih]

/-- The remove-if-present step for one id leaves the jobs of every other
id untouched. -/
theorem removeIf_filter_other (jobs : JobTable) (jid jid' : String) (hne : jid' ≠ jid) :
    ((if (get_job jobs jid).isSome then remove_job jobs jid else jobs).filter
      (fun j => j.id = jid')) = jobs.filter (fun j => j.id = jid') := by
  by_cases hg : (get_job jobs jid).isSome
  · rw [if_pos hg]
    exact remove_filter_other jobs jid jid' hne
  · rw [if_neg hg]

/-- One `schedule_user_news` call keeps every id's job count at most 1. -/
theorem schedule_countId_le (validTz : String → Bool) (jobs : JobTable) (uid : Int)
    (t tz : String) (jid : String) (h : countId jobs jid ≤ 1) :
    countId (schedule_user_news validTz jobs uid t tz) jid ≤ 1 := by
  cases hp : parseTime t with
  | none =>
      simp only [schedule_user_news, hp]
      exact h
  | some hm =>
      simp only [schedule_user_news, hp]
      by_cases hr : (hm.1 ≤ 23 && hm.2 ≤ 59) = true
      · rw [if_pos hr]
        unfold countId add_job
        rw [List.filter_append]
        by_cases hj : jid = job_id uid
        · rw [hj, removeIf_filter_self]
          simp only [List.nil_append, List.filter_cons, List.filter_nil]
          split
          · simp
          · simp
        · rw [removeIf_filter_other jobs (job_id uid) jid hj]
          have hend : List.filter (fun j => j.id = jid)
              [(⟨job_id uid, ⟨hm.1, hm.2, if validTz tz then tz else "UTC"⟩⟩ : Job)] = [] := by
            simp only [List.filter_cons, List.filter_nil]
            rw [if_neg (by simpa using Ne.symm hj)]
          rw [hend, List.append_nil]
          exact h
      · rw [if_neg hr]
        unfold countId
        by_cases hj : jid = job_id uid
        · rw [hj, removeIf_filter_self]
          simp
        · rw [removeIf_filter_other jobs (job_id uid) jid hj]
          exact h

/-- One `update_user_schedule` call keeps every id's job count at most 1. -/
theorem update_countId_le (validTz : String → Bool) (jobs : JobTable) (uid : Int)
    (prefs : Preferences) (jid : String) (h : countId jobs jid ≤ 1) :
    countId (update_user_schedule validTz jobs uid prefs) jid ≤ 1 := by
  have h1 : countId (if (get_job jobs (job_id uid)).isSome
      then remove_job jobs (job_id uid) else jobs) jid ≤ 1 := by
    unfold countId
    by_cases hj : jid = job_id uid
    · rw [hj, removeIf_filter_self]
      simp
    · rw [removeIf_filter_other jobs (job_id uid) jid hj]
      exact h
  cases hp : prefs.preferred_time with
  | none =>
      simp only [update_user_schedule, hp]
      exact h1
  | some t =>
      simp only [update_user_schedule, hp]
      by_cases hn : (prefs.notifications && !(t == "")) = true
      · rw [if_pos (by simpa using hn)]
        exact schedule_countId_le validTz _ uid t prefs.timezone jid h1
      · rw [if_neg (by simpa using hn)]
        exact h1

/-- Any sequence of scheduler calls preserves the at-most-one-job-per-id
invariant. -/
theorem applyOps_countId_le (validTz : String → Bool) (ops : List SchedOp) :
    ∀ jobs : JobTable, (∀ jid, countId jobs jid ≤ 1) →
      ∀ jid, countId (applyOps validTz jobs ops) jid ≤ 1 := by
  induction ops with
  | nil => intro jobs h jid; exact h jid
  | cons o rest ih =>
      intro jobs h jid
      simp only [applyOps, List.foldl_cons]
      refine ih (applyOp validTz jobs o) ?_ jid
      intro jid'
      cases o with
      | sched uid t tz => exact schedule_countId_le validTz jobs uid t tz jid' (h jid')
      | upd uid p => exact update_countId_le validTz jobs uid p jid' (h jid')

/-- After `update_user_schedule` with notifications on and a valid,
in-range time, exactly the one freshly armed job carries the user's id,
and its trigger is built from that time and the (UTC-substituted)
timezone. -/
theorem update_arms_latest (validTz : String → Bool) (jobs : JobTable) (uid : Int)
    (prefs : Preferences) (t : String) (h m : Nat)
    (hn : prefs.notifications = true) (ht : prefs.preferred_time = some t)
    (hne : t ≠ "") (hp : parseTime t = some (h, m)) (hh : h ≤ 23) (hm : m ≤ 59) :
    (update_user_schedule validTz jobs uid prefs).filter (fun j => j.id = job_id uid) =
      [⟨job_id uid, ⟨h, m, if validTz prefs.timezone then prefs.timezone else "UTC"⟩⟩] := by
  simp only [update_user_schedule, ht]
  rw [if_pos (show (prefs.notifications && decide (t ≠ "")) = true by
    rw [hn]
    simpa using hne)]
  simp only [schedule_user_news, hp]
  rw [if_pos (show ((h, m).1 ≤ 23 && (h, m).2 ≤ 59) = true by simp [hh, hm])]
  unfold add_job
  rw [List.filter_append, removeIf_filter_self]
  simp

/-- Claim C7: single active timer.  Starting from the empty job store,
after any sequence of `schedule_user_news` / `update_user_schedule`
calls at most one job exists per job id — in particular at most one
`daily_news_<r>` job per recipient r, each arming having removed the
pre-existing job first — and an `update_user_schedule` observing
notifications enabled and a valid in-range preferred time leaves exactly
one job for that recipient, whose trigger carries that latest
time and its (UTC-substituted) timezone. -/
theorem single_active_timer :
    (∀ (validTz : String → Bool) (ops : List SchedOp) (jid : String),
      countId (applyOps validTz [] ops) jid ≤ 1) ∧
    (∀ (validTz : String → Bool) (jobs : JobTable) (uid : Int)
        (prefs : Preferences) (t : String) (h m : Nat),
      prefs.notifications = true → prefs.preferred_time = some t → t ≠ "" →
      parseTime t = some (h, m) → h ≤ 23 → m ≤ 59 →
      (update_user_schedule validTz jobs uid prefs).filter (fun j => j.id = job_id uid) =
        [⟨job_id uid, ⟨h, m, if validTz prefs.timezone then prefs.timezone else "UTC"⟩⟩]) := by
  constructor
  · intro validTz ops jid
    exact applyOps_countId_le validTz ops [] (by intro jid'; simp [countId]) jid
  · intro validTz jobs uid prefs t h m hn ht hne hp hh hm
    exact update_arms_latest validTz jobs uid prefs t h m hn ht hne hp hh hm

/-- Witness for C7 at concrete inputs: after scheduling user 5 and then
updating user 5 to 08:00 Europe/London with notifications on, at most one
`daily_news_5` job exists, and the update starting from an armed 07:30
job leaves exactly the 08:00 London trigger. -/
theorem single_active_timer_witness :
    countId (applyOps (fun tz => tz = "Europe/London") []
      [SchedOp.sched 5 "07:30" "Europe/London",
       SchedOp.upd 5 ⟨["technology"], some "08:00", some "en", 5, true, "Europe/London"⟩])
      "daily_news_5" ≤ 1 ∧
    (update_user_schedule (fun tz => tz = "Europe/London")
        [⟨"daily_news_5", ⟨7, 30, "Europe/London"⟩⟩] 5
        ⟨["technology"], some "08:00", some "en", 5, true, "Europe/London"⟩).filter
      (fun j => j.id = job_id 5) =
      [⟨job_id 5, ⟨8, 0, "Europe/London"⟩⟩] := by
  constructor
  · exact single_active_timer.1 (fun tz => tz = "Europe/London")
      [SchedOp.sched 5 "07:30" "Europe/London",
       SchedOp.upd 5 ⟨["technology"], some "08:00", some "en", 5, true, "Europe/London"⟩]
      "daily_news_5"
  · have := single_active_timer.2 (fun tz => tz = "Europe/London")
      [⟨"daily_news_5", ⟨7, 30, "Europe/London"⟩⟩] 5
      ⟨["technology"], some "08:00", some "en", 5, true, "Europe/London"⟩
      "08:00" 8 0 rfl rfl (by decide) (by decide) (by decide) (by decide)
    simpa using this

/-- Outcome of one scheduled firing
(`NewsScheduler._send_scheduled_news_to_user`): the categories for which
a delivery run was invoked, the total article count, and whether the
aggregate summary message was sent. -/
structure ScheduledRunResult where
  invoked : List String
  total : Nat
  summary_sent : Bool
deriving DecidableEq

/-- The firing's per-category loop: for each captured category that the
bot's category dictionary knows, invoke `send_news_to_dm` (abstracted by
the oracle `deliver`), accumulate the total, and remember the categories
that contributed at least one article. -/
def scheduledLoop (known : List String) (deliver : String → Nat) :
    List String → Nat × List String × List String
  | [] => (0, [], [])
  | c :: rest =>
      if known.contains c then
        (deliver c + (scheduledLoop known deliver rest).1,
         (if 0 < deliver c then [c] else []) ++ (scheduledLoop known deliver rest).2.1,
         c :: (scheduledLoop known deliver rest).2.2)
      else scheduledLoop known deliver rest

/-- `NewsScheduler._send_scheduled_news_to_user(user_id, categories)`:
re-read the user's CURRENT preferences (passed here as `prefsNow`) and
return at once when notifications are now disabled — no delivery run, no
message; otherwise run the per-category loop over the captured category
list and send the one aggregate summary message exactly when
`total_articles > 0`. -/
def send_scheduled_news (prefsNow : Preferences) (categories known : List String)
    (deliver : String → Nat) : ScheduledRunResult :=
  if prefsNow.notifications = false then ⟨[], 0, false⟩
  else
    ⟨(scheduledLoop known deliver categories).2.2,
     (scheduledLoop known deliver categories).1,
     decide (0 < (scheduledLoop known deliver categories).1)⟩

/-- Claim C8: at each scheduled firing the freshly re-read notification
state gates everything — if notifications are disabled at that moment no
per-category delivery is invoked, the total is 0 and no message (in
particular no summary) is sent; and whenever the firing does run, the
aggregate summary is emitted exactly when at least one article was
delivered, so a sent summary implies a positive total. -/
theorem scheduled_firing_guard (prefsNow : Preferences)
    (categories known : List String) (deliver : String → Nat) :
    (prefsNow.notifications = false →
      send_scheduled_news prefsNow categories known deliver = ⟨[], 0, false⟩) ∧
    ((send_scheduled_news prefsNow categories known deliver).summary_sent =
      decide (0 < (send_scheduled_news prefsNow categories known deliver).total)) ∧
    ((send_scheduled_news prefsNow categories known deliver).summary_sent = true →
      0 < (send_scheduled_news prefsNow categories known deliver).total) := by
  refine ⟨?_, ?_, ?_⟩
  · intro h
    simp [send_scheduled_news, h]
  · by_cases h : prefsNow.notifications = false
    · simp [send_scheduled_news, h]
    · simp only [send_scheduled_news, if_neg h]
  · intro h
    by_cases hn : prefsNow.notifications = false
    · rw [(by simp [send_scheduled_news, hn] :
        send_scheduled_news prefsNow categories known deliver =
          (⟨[], 0, false⟩ : ScheduledRunResult))] at h
      exact absurd h (by decide)
    · simp only [send_scheduled_news, if_neg hn] at h ⊢
      exact of_decide_eq_true h

/-- Witness for C8 at concrete inputs: a disabled firing does nothing,
and an enabled firing that delivered 3 articles sent the summary with a
positive total. -/
theorem scheduled_firing_guard_witness :
    send_scheduled_news ⟨["technology"], some "08:00", some "en", 5, false, "UTC"⟩
      ["technology"] ["technology"] (fun _ => 3) = ⟨[], 0, false⟩ ∧
    0 < (send_scheduled_news ⟨["technology"], some "08:00", some "en", 5, true, "UTC"⟩
      ["technology"] ["technology"] (fun _ => 3)).total :=
  ⟨(scheduled_firing_guard ⟨["technology"], some "08:00", some "en", 5, false, "UTC"⟩
      ["technology"] ["technology"] (fun _ => 3)).1 rfl,
   (scheduled_firing_guard ⟨["technology"], some "08:00", some "en", 5, true, "UTC"⟩
      ["technology"] ["technology"] (fun _ => 3)).2.2 (by decide)⟩

end NewsBot
